import Mathlib

/-!
# Verification of the exapi request-signing and error-normalization core

Shallow embedding of the `exapi` repository's signing layer
(`exapi/exchanges/{binance,bybit,ftx}/utils.py`), response classifiers
(`.../rest.py`, `_handle_response`) and typed-exception hierarchy
(`exapi/exceptions.py` and per-exchange `exceptions.py`), together with proofs
about the spec's claims on them.

Conventions of the embedding:
* Byte strings are `List Nat` with every element `< 256`.
* Python `dict`s / `OrderedDict`s are insertion-ordered association lists
  `List (String × String)`; decoded JSON objects are `List (String × Json)`.
* Machine/bit arithmetic of SHA-256 is done on `Nat` modulo `2^32`.
* Python code that can raise is modelled with `Except String` / explicit
  error constructors; the error string names the Python exception raised.
-/

/-! ## SHA-256 (FIPS 180-4), byte-level, over `List Nat`

Mirrors Python's `hashlib.sha256` as used by `create_signature` in
`exapi/exchanges/binance/utils.py` and `exapi/exchanges/bybit/utils.py`. -/

namespace Crypto

/-- Truncation to a 32-bit word. -/
def mask32 : Nat := 4294967295

/-- Right-rotation of a 32-bit word. -/
def rotr (n a : Nat) : Nat :=
  (a >>> n) ||| ((a <<< (32 - n)) &&& mask32)

/-- The eight initial hash values of SHA-256 (FIPS 180-4 §5.3.3, written
in decimal). -/
def sha256InitState : Nat × Nat × Nat × Nat × Nat × Nat × Nat × Nat :=
  (1779033703, 3144134277, 1013904242, 2773480762,
   1359893119, 2600822924, 528734635, 1541459225)

/-- The 64 round constants of SHA-256 (FIPS 180-4 §4.2.2, written in
decimal). -/
def sha256K : List Nat :=
  [1116352408, 1899447441, 3049323471, 3921009573, 961987163, 1508970993,
   2453635748, 2870763221, 3624381080, 310598401, 607225278, 1426881987,
   1925078388, 2162078206, 2614888103, 3248222580, 3835390401, 4022224774,
   264347078, 604807628, 770255983, 1249150122, 1555081692, 1996064986,
   2554220882, 2821834349, 2952996808, 3210313671, 3336571891, 3584528711,
   113926993, 338241895, 666307205, 773529912, 1294757372, 1396182291,
   1695183700, 1986661051, 2177026350, 2456956037, 2730485921, 2820302411,
   3259730800, 3345764771, 3516065817, 3600352804, 4094571909, 275423344,
   430227734, 506948616, 659060556, 883997877, 958139571, 1322822218,
   1537002063, 1747873779, 1955562222, 2024104815, 2227730452, 2361852424,
   2428436474, 2756734187, 3204031479, 3329325298]

/-- Message-schedule σ₀. -/
def sigma0 (x : Nat) : Nat := rotr 7 x ^^^ rotr 18 x ^^^ (x >>> 3)

/-- Message-schedule σ₁. -/
def sigma1 (x : Nat) : Nat := rotr 17 x ^^^ rotr 19 x ^^^ (x >>> 10)

/-- Extends the 16-word block to the 64-word message schedule; `fuel` is the
number of words still to append (48 at the top call). -/
def extendSchedule : List Nat → Nat → List Nat
  | ws, 0 => ws
  | ws, n + 1 =>
    let i := ws.length
    let w := (sigma1 (ws.getD (i - 2) 0) + ws.getD (i - 7) 0 +
              sigma0 (ws.getD (i - 15) 0) + ws.getD (i - 16) 0) % (mask32 + 1)
    extendSchedule (ws ++ [w]) n

/-- One round of the SHA-256 compression loop; `kw` is the sum of the round
constant and the schedule word. -/
def sha256Round (st : Nat × Nat × Nat × Nat × Nat × Nat × Nat × Nat) (kw : Nat) :
    Nat × Nat × Nat × Nat × Nat × Nat × Nat × Nat :=
  let (a, b, c, d, e, f, g, h) := st
  let s1 := rotr 6 e ^^^ rotr 11 e ^^^ rotr 25 e
  let ch := (e &&& f) ^^^ ((e ^^^ mask32) &&& g)
  let t1 := (h + s1 + ch + kw) % (mask32 + 1)
  let s0 := rotr 2 a ^^^ rotr 13 a ^^^ rotr 22 a
  let maj := (a &&& b) ^^^ (a &&& c) ^^^ (b &&& c)
  let t2 := (s0 + maj) % (mask32 + 1)
  ((t1 + t2) % (mask32 + 1), a, b, c, (d + t1) % (mask32 + 1), e, f, g)

/-- Compression of one 16-word block into the running state. -/
def sha256Compress (st : Nat × Nat × Nat × Nat × Nat × Nat × Nat × Nat)
    (block : List Nat) : Nat × Nat × Nat × Nat × Nat × Nat × Nat × Nat :=
  let ws := extendSchedule block 48
  let fin := (ws.zip sha256K).foldl
    (fun s p => sha256Round s ((p.1 + p.2) % (mask32 + 1))) st
  let (a, b, c, d, e, f, g, h) := st
  let (a', b', c', d', e', f', g', h') := fin
  ((a + a') % (mask32 + 1), (b + b') % (mask32 + 1), (c + c') % (mask32 + 1),
   (d + d') % (mask32 + 1), (e + e') % (mask32 + 1), (f + f') % (mask32 + 1),
   (g + g') % (mask32 + 1), (h + h') % (mask32 + 1))

/-- Big-endian 8-byte encoding of a length in bits. -/
def be64 (n : Nat) : List Nat :=
  [(n >>> 56) &&& 255, (n >>> 48) &&& 255, (n >>> 40) &&& 255,
   (n >>> 32) &&& 255, (n >>> 24) &&& 255, (n >>> 16) &&& 255,
   (n >>> 8) &&& 255, n &&& 255]

/-- SHA-256 padding: append `0x80`, zero bytes up to 56 mod 64, then the
bit length as an 8-byte big-endian integer. -/
def sha256Pad (msg : List Nat) : List Nat :=
  let l := msg.length
  msg ++ [128] ++ List.replicate ((119 - l % 64) % 64) 0 ++ be64 (8 * l)

/-- Groups bytes into big-endian 32-bit words (input length a multiple of 4). -/
def bytesToWords : List Nat → List Nat
  | b0 :: b1 :: b2 :: b3 :: rest =>
    (b0 * 16777216 + b1 * 65536 + b2 * 256 + b3) :: bytesToWords rest
  | _ => []

/-- Splits a word list into 16-word blocks; the fuel argument (instantiated
with the list length) keeps the recursion structural so that proofs can
evaluate it by kernel reduction. -/
def toBlocksAux : Nat → List Nat → List (List Nat)
  | 0, _ => []
  | _, [] => []
  | fuel + 1, ws => (ws.take 16) :: toBlocksAux fuel (ws.drop 16)

/-- Splits a word list into 16-word blocks. -/
def toBlocks (ws : List Nat) : List (List Nat) :=
  toBlocksAux ws.length ws

/-- Splits a 32-bit word into four big-endian bytes. -/
def wordBytes (w : Nat) : List Nat :=
  [(w >>> 24) &&& 255, (w >>> 16) &&& 255, (w >>> 8) &&& 255, w &&& 255]

/-- SHA-256 of a byte string, as the 32-byte digest. -/
def sha256 (msg : List Nat) : List Nat :=
  let blocks := toBlocks (bytesToWords (sha256Pad msg))
  let (a, b, c, d, e, f, g, h) := blocks.foldl sha256Compress sha256InitState
  wordBytes a ++ wordBytes b ++ wordBytes c ++ wordBytes d ++
  wordBytes e ++ wordBytes f ++ wordBytes g ++ wordBytes h

/-- HMAC-SHA256 (RFC 2104) over byte strings, mirroring Python's
`hmac.new(key, msg, hashlib.sha256)`. -/
def hmacSha256 (key msg : List Nat) : List Nat :=
  let k := if 64 < key.length then sha256 key else key
  let kp := k ++ List.replicate (64 - k.length) 0
  let ipadded := kp.map (fun b => b ^^^ 0x36)
  let opadded := kp.map (fun b => b ^^^ 0x5c)
  sha256 (opadded ++ sha256 (ipadded ++ msg))

/-- Lower-case hex digit. -/
def hexDigit (n : Nat) : Char :=
  if n < 10 then Char.ofNat (48 + n) else Char.ofNat (87 + n)

/-- Lower-case hex string of a byte string: Python's `.hexdigest()`. -/
def hexOfBytes (bs : List Nat) : String :=
  String.mk (bs.foldr (fun b acc => hexDigit (b / 16) :: hexDigit (b % 16) :: acc) [])

/-- UTF-8 encoding of one scalar value, byte list. -/
def utf8Char (c : Char) : List Nat :=
  let n := c.toNat
  if n < 128 then [n]
  else if n < 2048 then [192 + n / 64, 128 + n % 64]
  else if n < 65536 then [224 + n / 4096, 128 + (n / 64) % 64, 128 + n % 64]
  else [240 + n / 262144, 128 + (n / 4096) % 64, 128 + (n / 64) % 64, 128 + n % 64]

/-- UTF-8 bytes of a string: Python's `s.encode("utf-8")`. -/
def strBytes (s : String) : List Nat :=
  (s.data.map utf8Char).flatten

end Crypto

/-! ## Python-dict and URL-encoding model

`urllib.parse.urlencode` with its defaults (`quote_via=quote_plus`,
`safe=""`), as called by `create_signature` in the Binance and Bybit
signers.  Python dicts are insertion-ordered, so they are embedded as
association lists; `dictSet` is `d[k] = v` (update in place when the key
exists, append otherwise). -/

/-- An insertion-ordered `str -> str` mapping (Python dict); stands for the
repository's `ParamsType`/`HeadersType`/`FormType` aliases. -/
abbrev Params := List (String × String)

/-- The keys of a mapping, in insertion order. -/
def pkeys (d : Params) : List String := d.map Prod.fst

/-- `d[k] = v` on a Python dict: replaces the value in place when `k` is
already a key (position preserved), appends `(k, v)` otherwise.  Dict
displays `\x7b**d, "k": v\x7d` update in the same way. -/
def dictSet (d : Params) (k v : String) : Params :=
  if k ∈ pkeys d then d.map (fun kv => if kv.1 = k then (k, v) else kv)
  else d ++ [(k, v)]

/-- `d[k]` lookup (first entry; real dicts have unique keys). -/
def dictGet (d : Params) (k : String) : Option String :=
  (d.find? (fun kv => kv.1 == k)).map Prod.snd

/-- Python's `<` on strings: lexicographic by code point. -/
def lexLt : List Char → List Char → Bool
  | [], [] => false
  | [], _ :: _ => true
  | _ :: _, [] => false
  | x :: xs, y :: ys => if x = y then lexLt xs ys else decide (x < y)

/-- Python's `<` on strings, on `String`. -/
def strLt (a b : String) : Bool := lexLt a.data b.data

/-- Python's `<=` on strings (total order: `a <= b` iff not `b < a`). -/
def strLe (a b : String) : Bool := !(strLt b a)

/-- Bytes that `urllib.parse.quote` leaves unencoded with `safe=""`:
ASCII letters, digits, and `_.-~`. -/
def quoteSafe (b : Nat) : Bool :=
  (48 ≤ b && b ≤ 57) || (65 ≤ b && b ≤ 90) || (97 ≤ b && b ≤ 122) ||
  b == 95 || b == 46 || b == 45 || b == 126

/-- Upper-case hex digit (percent-escapes use upper case). -/
def hexDigitUpper (n : Nat) : Char :=
  if n < 10 then Char.ofNat (48 + n) else Char.ofNat (55 + n)

/-- Python's `urllib.parse.quote_plus`: UTF-8-encode, keep safe bytes,
turn spaces into `+`, percent-escape the rest. -/
def quotePlus (s : String) : String :=
  String.mk ((Crypto.strBytes s).foldr
    (fun b acc =>
      if quoteSafe b then Char.ofNat b :: acc
      else if b == 32 then Char.ofNat 43 :: acc
      else Char.ofNat 37 :: hexDigitUpper (b / 16) :: hexDigitUpper (b % 16) :: acc)
    [])

/-- Python's `urllib.parse.urlencode(d)`: `k=v` pairs joined with `&`,
keys and values passed through `quote_plus`, in the dict's iteration
(insertion) order. -/
def urlencode (d : Params) : String :=
  String.intercalate "&" (d.map (fun kv => quotePlus kv.1 ++ "=" ++ quotePlus kv.2))

/-! ## Data model (`exapi/models.py`)

`Request` is the frozen dataclass of `exapi/models.py`; the `method` field
stands for the `Literal["GET", "POST", "PUT", "PATCH", "DELETE"]`
annotation.  `data` (the body form) may be a mapping, raw bytes, a plain
string, or `None`; `json` is a decoded JSON document or `None`.  `Json` is
the decoded-JSON universe (numbers restricted to integers, the only kind
the classifiers inspect). -/

/-- Decoded JSON, as handed to `_handle_response` by `response.json()`. -/
inductive Json where
  | null
  | bool (b : Bool)
  | num (n : Int)
  | str (s : String)
  | arr (elems : List Json)
  | obj (fields : List (String × Json))

/-- The `data` (body-form) field of a `Request`:
`FormType | bytes | str` (absence is `Option.none` outside). -/
inductive Form where
  | form (fields : Params)
  | raw (bytes : List Nat)
  | str (s : String)

/-- `exapi.models.Request` (frozen dataclass). -/
structure Request where
  method : String
  base_url : String
  path : String
  params : Params := []
  headers : Params := []
  data : Option Form := none
  json : Option Json := none

/-- `exapi.models.Response`: status, headers, decoded JSON body; built by
classifiers on failure paths and attached to the typed errors. -/
structure ResponseInfo where
  status : Nat
  headers : Params
  body : Json

/-- `exapi.models.BaseCredentials` (frozen dataclass).  The Bybit and
Binance credential classes (`BybitCredentials`, `BinanceCredentials`,
whose module files are not part of the sources) add no fields used by the
signers; per the spec they are the plain key/secret value object. -/
structure Credentials where
  api_key : String
  api_secret : String

/-- `exapi.exchanges.ftx.models.FTXCredentials`: key/secret plus an
optional subaccount. -/
structure FTXCredentials where
  api_key : String
  api_secret : String
  subaccount : Option String := none

/-! ## Signers -/

/-- `create_signature` of `exapi/exchanges/binance/utils.py` and (textually
identical) of `exapi/exchanges/bybit/utils.py`: HMAC-SHA256 of the
URL-encoded parameters, keyed by the UTF-8 bytes of the secret, as a
lower-case hex digest. -/
def create_signature (api_secret : String) (params : Params) : String :=
  Crypto.hexOfBytes
    (Crypto.hmacSha256 (Crypto.strBytes api_secret)
      (Crypto.strBytes (urlencode params)))

namespace Bybit

/-- The dict display `\x7b**unordered_params, "timestamp": str(timestamp),
"api_key": credentials.api_key\x7d` of `bybit/utils.py:36-40`. -/
def mergedParams (base : Params) (api_key : String) (timestamp : Int) : Params :=
  dictSet (dictSet base "timestamp" (toString timestamp)) "api_key" api_key

/-- The `for k in sorted(unordered_params): params[k] = unordered_params[k]`
loop of `bybit/utils.py:41-43`: the parameters re-inserted in
lexicographically sorted key order. -/
def sortParams (d : Params) : Params :=
  (List.insertionSort (fun a b : String => strLe a b = true) (pkeys d)).map
    (fun k => (k, (dictGet d k).getD ""))

/-- Lines 36-46 of `bybit/utils.py`: merge in `timestamp` and `api_key`,
sort by key, sign, and append the `sign` field (`params["sign"] = signature`). -/
def signedParams (base : Params) (c : Credentials) (timestamp : Int) : Params :=
  let params := sortParams (mergedParams base c.api_key timestamp)
  dictSet params "sign" (create_signature c.api_secret params)

/-- `request.params if method == "GET" else cast(ParamsType, request.data or \x7b\x7d)`
(`bybit/utils.py:32-34`) for the non-GET arm: a missing or empty (falsy)
body form becomes the empty dict; unpacking a non-empty `str` or `bytes`
body with `\x7b**...\x7d` raises `TypeError`. -/
def formAsParams : Option Form → Except String Params
  | none => .ok []
  | some (.form fields) => .ok fields
  | some (.raw bs) => if bs = [] then .ok [] else .error "TypeError"
  | some (.str s) => if s = "" then .ok [] else .error "TypeError"

/-- `sign_request` of `exapi/exchanges/bybit/utils.py` with an explicit
timestamp (the `timestamp=None` default merely substitutes the current
wall-clock milliseconds before the same computation).  The signable set is
the query params for GET and the body form otherwise; the signed set is
placed back on that same side, the other side passing through unchanged
(lines 48-63). -/
def sign_request (request : Request) (credentials : Credentials)
    (timestamp : Int) : Except String Request :=
  if request.method = "GET" then
    .ok { request with params := signedParams request.params credentials timestamp }
  else
    match formAsParams request.data with
    | .error e => .error e
    | .ok base =>
      .ok { request with data := some (.form (signedParams base credentials timestamp)) }

end Bybit

namespace Binance

/-- `sign_request` of `exapi/exchanges/binance/utils.py` with an explicit
timestamp.  `OrderedDict(**params, timestamp=str(timestamp))` (line 33)
raises `TypeError` when `params` already has a `timestamp` key (duplicate
keyword argument); likewise line 35 for `signature`.  Otherwise the new
keys are appended in insertion order, and the `X-MBX-APIKEY` header is
set. -/
def sign_request (request : Request) (credentials : Credentials)
    (timestamp : Int) : Except String Request :=
  let headers := dictSet request.headers "X-MBX-APIKEY" credentials.api_key
  if "timestamp" ∈ pkeys request.params then
    .error "TypeError: multiple values for keyword argument timestamp"
  else
    let params := request.params ++ [("timestamp", toString timestamp)]
    if "signature" ∈ pkeys params then
      .error "TypeError: multiple values for keyword argument signature"
    else
      let signature := create_signature credentials.api_secret params
      .ok { request with
              params := params ++ [("signature", signature)],
              headers := headers }

end Binance

/-! ## JSON serialization and Python-semantics helpers -/

/-- Four lower-case hex digits, for `\uXXXX` escapes. -/
def hex4 (n : Nat) : List Char :=
  [Crypto.hexDigit (n / 4096 % 16), Crypto.hexDigit (n / 256 % 16),
   Crypto.hexDigit (n / 16 % 16), Crypto.hexDigit (n % 16)]

/-- One character of a JSON string under `json.dumps` defaults
(`ensure_ascii=True`): short escapes for the usual controls, `\uXXXX`
(surrogate pairs beyond the BMP) for other controls and all non-ASCII. -/
def jsonEscapeChar (c : Char) : List Char :=
  let n := c.toNat
  if n = 34 then [Char.ofNat 92, Char.ofNat 34]
  else if n = 92 then [Char.ofNat 92, Char.ofNat 92]
  else if n = 10 then [Char.ofNat 92, Char.ofNat 110]
  else if n = 13 then [Char.ofNat 92, Char.ofNat 114]
  else if n = 9 then [Char.ofNat 92, Char.ofNat 116]
  else if n = 8 then [Char.ofNat 92, Char.ofNat 98]
  else if n = 12 then [Char.ofNat 92, Char.ofNat 102]
  else if n < 32 then Char.ofNat 92 :: Char.ofNat 117 :: hex4 n
  else if n < 128 then [c]
  else if n < 65536 then Char.ofNat 92 :: Char.ofNat 117 :: hex4 n
  else
    let m := n - 65536
    Char.ofNat 92 :: Char.ofNat 117 :: hex4 (55296 + m / 1024) ++
      Char.ofNat 92 :: Char.ofNat 117 :: hex4 (56320 + m % 1024)

/-- A JSON string literal under `json.dumps` defaults. -/
def jsonQuote (s : String) : String :=
  String.mk (Char.ofNat 34 :: (s.data.map jsonEscapeChar).flatten ++ [Char.ofNat 34])

mutual

/-- Python's `json.dumps` with default separators `(", ", ": ")`, as used
by the FTX signer on the request's JSON body. -/
def jsonDumps : Json → String
  | .null => "null"
  | .bool b => if b then "true" else "false"
  | .num n => toString n
  | .str s => jsonQuote s
  | .arr elems => "[" ++ String.intercalate ", " (jsonDumpsList elems) ++ "]"
  | .obj fields => "\x7b" ++ String.intercalate ", " (jsonDumpsObj fields) ++ "\x7d"

/-- `json.dumps` over the elements of an array. -/
def jsonDumpsList : List Json → List String
  | [] => []
  | j :: js => jsonDumps j :: jsonDumpsList js

/-- `json.dumps` over the fields of an object. -/
def jsonDumpsObj : List (String × Json) → List String
  | [] => []
  | (k, v) :: fs => (jsonQuote k ++ ": " ++ jsonDumps v) :: jsonDumpsObj fs

end

namespace FTX

/-- `create_signature` of `exapi/exchanges/ftx/utils.py`: HMAC-SHA256 of
`f"\x7btimestamp\x7d\x7bmethod\x7d\x7bpath\x7d\x7bdata\x7d"`. -/
def create_signature (api_secret : String) (timestamp : Int)
    (method path data : String) : String :=
  Crypto.hexOfBytes
    (Crypto.hmacSha256 (Crypto.strBytes api_secret)
      (Crypto.strBytes (toString timestamp ++ method ++ path ++ data)))

/-- `sign_request` of `exapi/exchanges/ftx/utils.py` with an explicit
timestamp: signs `timestamp + method + path + json.dumps(body)` (empty
string for a missing body), sets the `FTX-KEY`/`FTX-SIGN`/`FTX-TS`
headers plus `FTX-SUBACCOUNT` when the credentials carry a subaccount,
and leaves every other field unchanged.  Total: no input raises. -/
def sign_request (request : Request) (credentials : FTXCredentials)
    (timestamp : Int) : Request :=
  let body_str := match request.json with
    | none => ""
    | some j => jsonDumps j
  let signature :=
    create_signature credentials.api_secret timestamp request.method
      request.path body_str
  let headers :=
    dictSet (dictSet (dictSet request.headers "FTX-KEY" credentials.api_key)
      "FTX-SIGN" signature) "FTX-TS" (toString timestamp)
  let headers := match credentials.subaccount with
    | none => headers
    | some s => dictSet headers "FTX-SUBACCOUNT" s
  { request with headers := headers }

end FTX

/-! ## Python value semantics used by the classifiers -/

/-- Field lookup in a decoded JSON object (`result["k"]`); decoded dicts
have unique keys, so the first match is the value. -/
def jsonGet (fields : List (String × Json)) (k : String) : Option Json :=
  (fields.find? (fun kv => kv.1 == k)).map (fun kv => kv.2)

/-- The integer a JSON value compares equal to under Python `==`, if any:
`True`/`False` are the integers 1/0; strings and containers are never
equal to an integer. -/
def pyIntView : Json → Option Int
  | .num n => some n
  | .bool b => some (if b then 1 else 0)
  | _ => none

/-- Python `value == 0`. -/
def pyEqZero (j : Json) : Bool := pyIntView j == some 0

/-- Python truthiness of a decoded JSON value. -/
def pyTruthy : Json → Bool
  | .null => false
  | .bool b => b
  | .num n => n != 0
  | .str s => s != ""
  | .arr elems => !elems.isEmpty
  | .obj fields => !fields.isEmpty

/-- `needle in hay` on Python strings (substring containment), on
character lists. -/
def listContainsSub (needle hay : List Char) : Bool :=
  match hay with
  | [] => needle == []
  | _ :: rest =>
    (needle == hay.take needle.length) || listContainsSub needle rest

/-- `s.startswith(p)` on character lists. -/
def listHasPre (p s : List Char) : Bool :=
  p == s.take p.length

/-- Python's `str.lower()` (faithful on the ASCII text the classifiers
compare against). -/
def pyLower (s : String) : String := String.mk (s.data.map Char.toLower)

/-- A single-quote character, for building the exact Python message
literals compared by `new_order`. -/
def apos : String := String.mk [Char.ofNat 39]

/-- Two lower-case hex digits. -/
def hex2 (n : Nat) : List Char := [Crypto.hexDigit (n / 16 % 16), Crypto.hexDigit (n % 16)]

/-- One character of a Python `repr` string literal with quote character
code `q`: escapes the backslash, the quote, and the usual controls
(`\xXX` for other controls; other printable characters kept — Python
additionally escapes some exotic non-printables that never arise here). -/
def pyEscapeChar (q : Nat) (c : Char) : List Char :=
  let n := c.toNat
  if n = 92 then [Char.ofNat 92, Char.ofNat 92]
  else if n = q then [Char.ofNat 92, Char.ofNat q]
  else if n = 10 then [Char.ofNat 92, Char.ofNat 110]
  else if n = 13 then [Char.ofNat 92, Char.ofNat 114]
  else if n = 9 then [Char.ofNat 92, Char.ofNat 116]
  else if n < 32 then Char.ofNat 92 :: Char.ofNat 120 :: hex2 n
  else [c]

/-- Python `repr` of a string: single-quoted, switching to double quotes
when the string contains a single quote but no double quote. -/
def pyStrQuote (s : String) : String :=
  let q : Nat :=
    if s.data.contains (Char.ofNat 39) && !(s.data.contains (Char.ofNat 34))
    then 34 else 39
  String.mk (Char.ofNat q :: (s.data.map (pyEscapeChar q)).flatten ++ [Char.ofNat q])

mutual

/-- Python `repr` of a decoded JSON value. -/
def pyRepr : Json → String
  | .null => "None"
  | .bool b => if b then "True" else "False"
  | .num n => toString n
  | .str s => pyStrQuote s
  | .arr elems => "[" ++ String.intercalate ", " (pyReprList elems) ++ "]"
  | .obj fields => "\x7b" ++ String.intercalate ", " (pyReprObj fields) ++ "\x7d"

/-- `repr` over array elements. -/
def pyReprList : List Json → List String
  | [] => []
  | j :: js => pyRepr j :: pyReprList js

/-- `repr` over object fields. -/
def pyReprObj : List (String × Json) → List String
  | [] => []
  | (k, v) :: fs => (pyStrQuote k ++ ": " ++ pyRepr v) :: pyReprObj fs

end

/-- Python `str()` of a decoded JSON value, as interpolated by the
`__str__` f-strings of the error classes. -/
def pyStr : Json → String
  | .str s => s
  | j => pyRepr j

/-! ## Typed errors (`exapi/exceptions.py` and per-exchange `exceptions.py`)

The exception-class hierarchies are embedded as kind enums plus one
payload shape: `ExchangeError.__init__` stores `request`, `response` and
`msg` (default `""`); the network errors (`RESTNotConnectionError`,
`RESTConnectionTimeoutError`) store only `request` — structurally, no
response envelope exists on those paths. -/

/-- The Binance error classes of `exapi/exchanges/binance/exceptions.py`
(`generic` = the `BinanceError` base). -/
inductive BinanceKind where
  | generic | auth | badPrecision | invalidSymbol | badRecvWindow
deriving DecidableEq

/-- The Bybit error classes of `exapi/exchanges/bybit/exceptions.py`
(`generic` = the `BybitError` base). -/
inductive BybitKind where
  | generic | auth | invalidParameter | insufficientBalance
  | tooHighPrice | tooLowPrice | invalidPriceDecimals
  | tooHighQuantity | tooLowQuantity | invalidQuantityDecimals
  | invalidSymbol
deriving DecidableEq

/-- The FTX error classes of `exapi/exchanges/ftx/exceptions.py`
(`generic` = the `FTXError` base). -/
inductive FTXKind where
  | generic | invalidMarket
deriving DecidableEq

/-- An `ExchangeError` (exchange-rejection) value: kind (the concrete
class), originating request, raw response envelope and the `msg`
argument (a decoded-JSON value; the constructor's default is `""`). -/
structure ExchangeRaise (K : Type) where
  kind : K
  request : Request
  response : ResponseInfo
  msg : Json := .str ""

/-- Outcome of `_handle_response` on a decoded body: a returned payload, a
raised typed `ExchangeError`, or an untyped Python error (`KeyError` /
`TypeError` / `AttributeError`), named by its message. -/
inductive Handle (K : Type) where
  | success (payload : Json)
  | raised (e : ExchangeRaise K)
  | pyError (m : String)

/-- What the transport collaborator produced for `_send_request`: a raw
response, or one of the two network-failure signals
(`aiohttp.ClientConnectionError` / `asyncio.TimeoutError`). -/
inductive TransportOutcome where
  | response (status : Nat) (headers : Params) (body : Json)
  | connectionFailure
  | timeoutFailure

/-- Outcome of `BaseExchangeREST._send_request`: the classifier's result,
or a raised `RESTNotConnectionError` / `RESTConnectionTimeoutError`
carrying only the request (`exapi/base/rest.py:46-49`). -/
inductive SendResult (K : Type) where
  | success (payload : Json)
  | raisedExchange (e : ExchangeRaise K)
  | raisedNotConnection (request : Request)
  | raisedTimeout (request : Request)
  | pyError (m : String)

/-- `True` exactly on the `success` constructor. -/
def Handle.isSuccess {K : Type} : Handle K → Bool
  | .success _ => true
  | _ => false

/-- `True` exactly on the untyped-Python-error constructor. -/
def Handle.isPyError {K : Type} : Handle K → Bool
  | .pyError _ => true
  | _ => false

/-- `True` exactly on the `success` constructor of a send outcome. -/
def SendResult.isSuccess {K : Type} : SendResult K → Bool
  | .success _ => true
  | _ => false

/-- `BaseExchangeREST._send_request` (`exapi/base/rest.py:36-52`): network
failures become `RESTNotConnectionError`/`RESTConnectionTimeoutError`
built from the request alone; a received response is passed to the
exchange's `_handle_response`. -/
def sendRequest {K : Type} (handler : Request → Nat → Params → Json → Handle K)
    (request : Request) (t : TransportOutcome) : SendResult K :=
  match t with
  | .connectionFailure => .raisedNotConnection request
  | .timeoutFailure => .raisedTimeout request
  | .response status headers body =>
    match handler request status headers body with
    | .success p => .success p
    | .raised e => .raisedExchange e
    | .pyError m => .pyError m

namespace Binance

/-- The `codes_to_exceptions` default-dict of
`binance/rest.py:1130-1143`: unknown codes fall back to the base
`BinanceError`. -/
def codesToExceptions (code : Int) : BinanceKind :=
  if code = -1002 then .auth
  else if code = -1022 then .auth
  else if code = -2014 then .auth
  else if code = -2015 then .auth
  else if code = -1111 then .badPrecision
  else if code = -1121 then .invalidSymbol
  else if code = -1131 then .badRecvWindow
  else .generic

/-- The default-dict lookup `codes_to_exceptions[code]` on the decoded
`result["code"]` value: integer-valued keys (including booleans, which
Python hashes as 0/1) consult the table, anything else misses to the
default. -/
def codeKind (code : Json) : BinanceKind :=
  match pyIntView code with
  | some n => codesToExceptions n
  | none => .generic

/-- `BinanceRESTWithoutCredentials._handle_response`
(`binance/rest.py:1119-1148`) on the decoded body: a list, or an object
with no `"code"` key, is returned as-is; otherwise the typed error for
`result["code"]` is raised with `msg=result["msg"]` — a `KeyError` when
the object lacks `"msg"`.  On non-container bodies the membership test
`"code" not in result` itself raises `TypeError`, except on strings,
where it is a substring test. -/
def handle_response (request : Request) (status : Nat) (headers : Params)
    (body : Json) : Handle BinanceKind :=
  match body with
  | .arr _ => .success body
  | .obj fields =>
    match jsonGet fields "code" with
    | none => .success body
    | some code =>
      match jsonGet fields "msg" with
      | none => .pyError "KeyError: msg"
      | some msg =>
        .raised ⟨codeKind code, request, ⟨status, headers, body⟩, msg⟩
  | .str s =>
    if listContainsSub "code".data s.data then
      .pyError "TypeError: string indices must be integers"
    else .success body
  | _ => .pyError "TypeError: argument is not iterable"

end Binance

namespace Bybit

/-- The `codes_to_exceptions` default-dict of `bybit/rest.py:386-407`:
unknown codes fall back to the base `BybitError`. -/
def codesToExceptions (code : Int) : BybitKind :=
  if code = -1002 then .auth
  else if code = -1022 then .auth
  else if code = -2014 then .auth
  else if code = -2015 then .auth
  else if code = -1130 then .invalidParameter
  else if code = -1131 then .insufficientBalance
  else if code = -1132 then .tooHighPrice
  else if code = -1133 then .tooLowPrice
  else if code = -1134 then .invalidPriceDecimals
  else if code = -1135 then .tooHighQuantity
  else if code = -1136 then .tooLowQuantity
  else if code = -1137 then .invalidQuantityDecimals
  else if code = -1121 then .invalidSymbol
  else if code = -100010 then .invalidSymbol
  else if code = -100011 then .invalidSymbol
  else .generic

/-- The default-dict lookup on the decoded `result["ret_code"]` value. -/
def codeKind (code : Json) : BybitKind :=
  match pyIntView code with
  | some n => codesToExceptions n
  | none => .generic

/-- `BybitRESTWithoutCredentials._handle_response`
(`bybit/rest.py:377-416`): reads `result["ret_code"]` (`KeyError` when
the object has none, `TypeError` on a non-object body); `ret_code == 0`
returns `result["result"]`; otherwise the mapped error class is raised
with the request and the response envelope — and no `msg` argument. -/
def handle_response (request : Request) (status : Nat) (headers : Params)
    (body : Json) : Handle BybitKind :=
  match body with
  | .obj fields =>
    match jsonGet fields "ret_code" with
    | none => .pyError "KeyError: ret_code"
    | some code =>
      if pyEqZero code then
        match jsonGet fields "result" with
        | none => .pyError "KeyError: result"
        | some payload => .success payload
      else .raised ⟨codeKind code, request, ⟨status, headers, body⟩, .str ""⟩
  | _ => .pyError "TypeError: indices must be integers"

/-- The first message literal `new_order` tests:
`Data sent for paramter 'symbol' is not valid.`. -/
def symbolMsg1 : String :=
  "Data sent for paramter " ++ apos ++ "symbol" ++ apos ++ " is not valid."

/-- The second message literal `new_order` tests (corrected spelling):
`Data sent for parameter 'symbol' is not valid.`. -/
def symbolMsg2 : String :=
  "Data sent for parameter " ++ apos ++ "symbol" ++ apos ++ " is not valid."

/-- The `try/except BybitInvalidParameterError` block of
`BybitRESTWithoutCredentials.new_order` (`bybit/rest.py:364-372`) applied
to the outcome of `_send_request`: a caught `BybitInvalidParameterError`
whose `response.body["ret_msg"]` is one of the two symbol-validation
message literals is re-raised as `BybitInvalidSymbolError(e.request,
e.response)`; any other caught error is re-raised by the bare `raise`;
everything else propagates uncaught.  The `ret_msg` lookup itself raises
`KeyError` when the stored body has no such field (`TypeError` when it is
not an object). -/
def newOrderCatch (r : SendResult BybitKind) : SendResult BybitKind :=
  match r with
  | .raisedExchange e =>
    if e.kind = .invalidParameter then
      match e.response.body with
      | .obj fields =>
        match jsonGet fields "ret_msg" with
        | none => .pyError "KeyError: ret_msg"
        | some m =>
          match m with
          | .str s =>
            if s = symbolMsg1 ∨ s = symbolMsg2 then
              .raisedExchange ⟨.invalidSymbol, e.request, e.response, .str ""⟩
            else r
          | _ => r
      | _ => .pyError "TypeError: indices must be integers"
    else r
  | _ => r

end Bybit

namespace FTX

/-- `FTXRESTWithoutCredentials._handle_response` (`ftx/rest.py:76-93`):
a truthy `result["success"]` returns `result["result"]`; otherwise
`result["error"].lower()` chooses `FTXInvalidMarketError` when it starts
with `no such market`, else the base `FTXError` — both raised without a
`msg` argument.  Missing envelope keys raise `KeyError`; a non-object
body raises `TypeError`; a non-string `error` value has no `.lower()`
and raises `AttributeError`. -/
def handle_response (request : Request) (status : Nat) (headers : Params)
    (body : Json) : Handle FTXKind :=
  match body with
  | .obj fields =>
    match jsonGet fields "success" with
    | none => .pyError "KeyError: success"
    | some ok =>
      if pyTruthy ok then
        match jsonGet fields "result" with
        | none => .pyError "KeyError: result"
        | some payload => .success payload
      else
        match jsonGet fields "error" with
        | none => .pyError "KeyError: error"
        | some err =>
          match err with
          | .str s =>
            if listHasPre "no such market".data (pyLower s).data then
              .raised ⟨.invalidMarket, request, ⟨status, headers, body⟩, .str ""⟩
            else .raised ⟨.generic, request, ⟨status, headers, body⟩, .str ""⟩
          | _ => .pyError "AttributeError: lower"
  | _ => .pyError "TypeError: indices must be integers"

end FTX

/-! ## `__str__` of the typed errors -/

/-- `__str__` of the Binance error classes
(`binance/exceptions.py`), with the stored `msg` interpolated by the
f-string. -/
def BinanceKind.errStr (kind : BinanceKind) (msg : Json) : String :=
  let m := pyStr msg
  match kind with
  | .generic => "Binance error: " ++ m
  | .invalidSymbol => "Invalid symbol. " ++ m
  | .auth => "Invalid api keys. " ++ m
  | .badPrecision => "Precision is over the maximum defined for this asset. " ++ m
  | .badRecvWindow => "Recv window must be less than 60000. " ++ m

/-- `__str__` of the Bybit error classes (`bybit/exceptions.py`). -/
def BybitKind.errStr (kind : BybitKind) (msg : Json) : String :=
  let m := pyStr msg
  match kind with
  | .generic => "Bybit error: " ++ m
  | .invalidSymbol => "Invalid symbol error. " ++ m
  | .auth => "Invalid api keys. " ++ m
  | .invalidPriceDecimals => "Order price decimal too long. " ++ m
  | .invalidQuantityDecimals => "Order quantity has too many decimals. " ++ m
  | .insufficientBalance => "Insufficient balance. " ++ m
  | .invalidParameter => "Invalid parameter sent. " ++ m
  | .tooHighPrice => "Order price exceeded upper limit. " ++ m
  | .tooLowPrice => "Order price exceeded lower limit. " ++ m
  | .tooHighQuantity => "Order quantity exceeded upper limit. " ++ m
  | .tooLowQuantity => "Order quantity exceeded lower limit. " ++ m

/-- `__str__` of the FTX error classes (`ftx/exceptions.py`). -/
def FTXKind.errStr (kind : FTXKind) (msg : Json) : String :=
  let m := pyStr msg
  match kind with
  | .generic => "FTX error. " ++ m
  | .invalidMarket => "Invalid market error. " ++ m

/-! ## Helper lemmas on the dict model -/

/-- In-place value replacement does not change the key list. -/
theorem pkeys_map_update (d : Params) (k v : String) :
    pkeys (d.map (fun kv => if kv.1 = k then (k, v) else kv)) = pkeys d := by
  induction d with
  | nil => rfl
  | cons a t ih =>
    by_cases h : a.1 = k
    · simp [pkeys, h] at ih ⊢
      exact ih
    · simp [pkeys, h] at ih ⊢
      exact ih

/-- Key list of a dict assignment: unchanged when the key exists, the key
appended otherwise. -/
theorem pkeys_dictSet (d : Params) (k v : String) :
    pkeys (dictSet d k v) =
      if k ∈ pkeys d then pkeys d else pkeys d ++ [k] := by
  unfold dictSet
  by_cases h : k ∈ pkeys d
  · rw [if_pos h, if_pos h, pkeys_map_update]
  · rw [if_neg h, if_neg h]
    simp [pkeys]

/-- Dict assignment preserves key uniqueness. -/
theorem pkeys_dictSet_nodup (d : Params) (k v : String)
    (h : (pkeys d).Nodup) : (pkeys (dictSet d k v)).Nodup := by
  rw [pkeys_dictSet]
  by_cases hk : k ∈ pkeys d
  · rwa [if_pos hk]
  · rw [if_neg hk]
    simp [List.nodup_append, h, hk]

/-- The sorted re-insertion loop enumerates exactly the sorted keys. -/
theorem pkeys_sortParams (d : Params) :
    pkeys (Bybit.sortParams d) =
      List.insertionSort (fun a b : String => strLe a b = true) (pkeys d) := by
  unfold Bybit.sortParams pkeys
  rw [List.map_map]
  exact List.map_id'' (fun _ => rfl) _

/-- Lexicographic order is irreflexive. -/
theorem lexLt_irrefl : ∀ (a : List Char), lexLt a a = false
  | [] => rfl
  | _ :: xs => by simp [lexLt, lexLt_irrefl xs]

/-- Lexicographic order is asymmetric. -/
theorem lexLt_asymm : ∀ (a b : List Char),
    lexLt a b = true → lexLt b a = false
  | [], [] => by simp [lexLt]
  | [], _ :: _ => by simp [lexLt]
  | _ :: _, [] => by simp [lexLt]
  | x :: xs, y :: ys => by
    simp only [lexLt]
    by_cases h : x = y
    · subst h
      simp only [if_pos rfl]
      exact lexLt_asymm xs ys
    · rw [if_neg h, if_neg (Ne.symm h)]
      intro hxy
      exact decide_eq_false (lt_asymm (of_decide_eq_true hxy))

/-- Lexicographic order is transitive. -/
theorem lexLt_trans : ∀ (a b c : List Char),
    lexLt a b = true → lexLt b c = true → lexLt a c = true
  | [], [], _ => by simp [lexLt]
  | [], _ :: _, [] => by simp [lexLt]
  | [], _ :: _, _ :: _ => by simp [lexLt]
  | _ :: _, [], _ => by simp [lexLt]
  | _ :: _, _ :: _, [] => by simp [lexLt]
  | x :: xs, y :: ys, z :: zs => by
    simp only [lexLt]
    by_cases hxy : x = y <;> by_cases hyz : y = z
    · subst hxy; subst hyz
      simp only [if_pos rfl]
      exact lexLt_trans xs ys zs
    · subst hxy
      rw [if_pos rfl, if_neg hyz, if_neg hyz]
      exact fun _ h => h
    · subst hyz
      rw [if_neg hxy, if_pos rfl, if_neg hxy]
      exact fun h _ => h
    · rw [if_neg hxy, if_neg hyz]
      intro h₁ h₂
      have hlt := lt_trans (of_decide_eq_true h₁) (of_decide_eq_true h₂)
      rw [if_neg (ne_of_lt hlt)]
      exact decide_eq_true hlt

/-- Lexicographic order is connected: distinct lists compare. -/
theorem lexLt_connex : ∀ (a b : List Char), a ≠ b →
    lexLt a b = true ∨ lexLt b a = true
  | [], [] => fun h => absurd rfl h
  | [], _ :: _ => fun _ => Or.inl (by simp [lexLt])
  | _ :: _, [] => fun _ => Or.inr (by simp [lexLt])
  | x :: xs, y :: ys => by
    intro hne
    by_cases hxy : x = y
    · subst hxy
      have hts : xs ≠ ys := fun h => hne (by rw [h])
      rcases lexLt_connex xs ys hts with h | h
      · exact Or.inl (by simp [lexLt, h])
      · exact Or.inr (by simp [lexLt, h])
    · rcases lt_or_gt_of_ne hxy with h | h
      · exact Or.inl (by simp [lexLt, if_neg hxy, h])
      · exact Or.inr (by simp [lexLt, if_neg (Ne.symm hxy), h])

instance strLe_isTotal : IsTotal String (fun a b => strLe a b = true) := by
  constructor
  intro a b
  unfold strLe strLt
  by_cases h : a.data = b.data
  · rw [h]
    left
    simp [lexLt_irrefl]
  · rcases lexLt_connex a.data b.data h with hl | hl
    · left
      simp [lexLt_asymm _ _ hl]
    · right
      simp [lexLt_asymm _ _ hl]

instance strLe_isTrans : IsTrans String (fun a b => strLe a b = true) := by
  constructor
  intro a b c hab hbc
  unfold strLe strLt at *
  rw [Bool.not_eq_true'] at hab hbc ⊢
  by_contra hca
  rw [Bool.not_eq_false] at hca
  by_cases hcb : c.data = b.data
  · rw [hcb, hab] at hca
    exact Bool.noConfusion hca
  · rcases lexLt_connex c.data b.data hcb with h | h
    · rw [h] at hbc
      exact Bool.noConfusion hbc
    · have := lexLt_trans _ _ _ h hca
      rw [this] at hab
      exact Bool.noConfusion hab

/-- A `strLe`-sorted duplicate-free list is strictly sorted under `strLt`. -/
theorem pairwise_strLt_of_le_nodup {l : List String}
    (hs : List.Pairwise (fun a b : String => strLe a b = true) l) (hn : l.Nodup) :
    List.Pairwise (fun a b : String => strLt a b = true) l :=
  (hs.and hn).imp (fun h => by
    obtain ⟨hle, hne⟩ := h
    have hdata : _ := fun hd => hne (String.ext hd)
    rcases lexLt_connex _ _ hdata with hl | hl
    · exact hl
    · unfold strLe strLt at hle
      rw [hl] at hle
      exact Bool.noConfusion hle)

set_option maxRecDepth 8192 in
/-- Concrete evaluation of the Bybit signed set at the spec's scenario
(empty params, `api_key="1tr"`, `api_secret="API_SECRET"`, timestamp
`1234`), HMAC-SHA256 digest included. -/
theorem bybit_signedParams_scenario_eval :
    Bybit.signedParams [] ⟨"1tr", "API_SECRET"⟩ 1234 =
      [("api_key", "1tr"), ("timestamp", "1234"),
       ("sign", "5259dde2c1f382c7f0a98cc6ac8ffdb1b2ea15a5adbff68d3c8f639fa290af89")] := by
  decide

/-! ## Claim theorems -/

/-- C1: Bybit signing scenario — for a GET request with empty params,
credentials `api_key="1tr"`, `api_secret="API_SECRET"` and timestamp
`1234`, `sign_request` returns a request whose params equal exactly
`api_key="1tr"`, `timestamp="1234"`,
`sign="5259dde2c1f382c7f0a98cc6ac8ffdb1b2ea15a5adbff68d3c8f639fa290af89"`,
all other request fields unchanged. -/
theorem bybit_sign_get_empty_params_scenario
    (base_url path : String) (headers : Params) (data : Option Form)
    (json : Option Json) :
    Bybit.sign_request ⟨"GET", base_url, path, [], headers, data, json⟩
        ⟨"1tr", "API_SECRET"⟩ 1234 =
      .ok ⟨"GET", base_url, path,
        [("api_key", "1tr"), ("timestamp", "1234"),
         ("sign", "5259dde2c1f382c7f0a98cc6ac8ffdb1b2ea15a5adbff68d3c8f639fa290af89")],
        headers, data, json⟩ := by
  simp [Bybit.sign_request, bybit_signedParams_scenario_eval]

/-- C2 counterexample: already at the spec's own scenario (GET, empty
params) the enumerated keys of the signed set are
`["api_key", "timestamp", "sign"]`, which is not in strict lexicographic
order, because `"sign" < "timestamp"` yet `sign` is enumerated last. -/
theorem bybit_signed_keys_not_lex_counterexample :
    pkeys (Bybit.signedParams [] ⟨"1tr", "API_SECRET"⟩ 1234) =
      ["api_key", "timestamp", "sign"] ∧
    ¬ List.Pairwise (fun a b : String => strLt a b = true)
      (pkeys (Bybit.signedParams [] ⟨"1tr", "API_SECRET"⟩ 1234)) := by
  rw [bybit_signedParams_scenario_eval]
  exact ⟨rfl, by decide⟩

/-- C2 (amended): for every input parameter set with duplicate-free keys,
the keys of the Bybit signed parameter set other than the appended `sign`
field appear in strict lexicographic order regardless of insertion order;
`sign` itself is present but appended after sorting. -/
theorem bybit_signed_keys_sorted (base : Params) (c : Credentials) (ts : Int)
    (hnd : (pkeys base).Nodup) :
    "sign" ∈ pkeys (Bybit.signedParams base c ts) ∧
    List.Pairwise (fun a b : String => strLt a b = true)
      ((pkeys (Bybit.signedParams base c ts)).erase "sign") := by
  simp only [Bybit.signedParams]
  have hmn : (pkeys (Bybit.mergedParams base c.api_key ts)).Nodup := by
    unfold Bybit.mergedParams
    exact pkeys_dictSet_nodup _ _ _ (pkeys_dictSet_nodup _ _ _ hnd)
  have hsk := pkeys_sortParams (Bybit.mergedParams base c.api_key ts)
  have hsorted : List.Pairwise (fun a b : String => strLe a b = true)
      (pkeys (Bybit.sortParams (Bybit.mergedParams base c.api_key ts))) := by
    rw [hsk]
    exact List.sorted_insertionSort _ _
  have hnods : (pkeys (Bybit.sortParams (Bybit.mergedParams base c.api_key ts))).Nodup := by
    rw [hsk]
    exact ((List.perm_insertionSort _ _).nodup_iff).mpr hmn
  have hplt := pairwise_strLt_of_le_nodup hsorted hnods
  rw [pkeys_dictSet]
  by_cases hs : "sign" ∈ pkeys (Bybit.sortParams (Bybit.mergedParams base c.api_key ts))
  · rw [if_pos hs]
    exact ⟨hs, List.Pairwise.sublist (List.erase_sublist _ _) hplt⟩
  · rw [if_neg hs]
    constructor
    · exact List.mem_append_right _ (by simp)
    · rw [List.erase_append_right _ hs]
      simp only [List.erase_cons_head, List.append_nil]
      exact hplt

/-- C2 witness: the amended ordering statement instantiated at the
spec's second scenario input (`symbol=BTCUSDT`). -/
theorem bybit_signed_keys_sorted_witness :
    "sign" ∈ pkeys (Bybit.signedParams [("symbol", "BTCUSDT")]
        ⟨"1tr", "API_SECRET"⟩ 1234) ∧
    List.Pairwise (fun a b : String => strLt a b = true)
      ((pkeys (Bybit.signedParams [("symbol", "BTCUSDT")]
          ⟨"1tr", "API_SECRET"⟩ 1234)).erase "sign") :=
  bybit_signed_keys_sorted [("symbol", "BTCUSDT")] ⟨"1tr", "API_SECRET"⟩ 1234
    (by decide)

/-- C3: placement of the Bybit signed set — for a GET request the signed
parameter set goes into the query params and the body form passes through
exactly as supplied; for a non-GET request the signed set goes into the
body form (built from the original body form) and the query params pass
through exactly as supplied. -/
theorem bybit_sign_placement (r : Request) (c : Credentials) (ts : Int)
    (res : Request) (h : Bybit.sign_request r c ts = .ok res) :
    (r.method = "GET" →
      res.params = Bybit.signedParams r.params c ts ∧ res.data = r.data) ∧
    (r.method ≠ "GET" →
      res.params = r.params ∧
      ∃ base, Bybit.formAsParams r.data = .ok base ∧
        res.data = some (.form (Bybit.signedParams base c ts))) := by
  unfold Bybit.sign_request at h
  by_cases hm : r.method = "GET"
  · rw [if_pos hm] at h
    injection h with h
    subst h
    exact ⟨fun _ => ⟨rfl, rfl⟩, fun hne => absurd hm hne⟩
  · rw [if_neg hm] at h
    cases hfp : Bybit.formAsParams r.data with
    | error e =>
      rw [hfp] at h
      exact absurd h (by simp)
    | ok base =>
      rw [hfp] at h
      injection h with h
      subst h
      exact ⟨fun hg => absurd hg hm, fun _ => ⟨rfl, base, rfl, rfl⟩⟩

set_option maxRecDepth 8192 in
/-- C3 witness: the placement statement instantiated at the GET scenario
request, with the hypothesis discharged by evaluation. -/
theorem bybit_sign_placement_witness :
    ("GET" = "GET" →
      ([("api_key", "1tr"), ("timestamp", "1234"),
        ("sign", "5259dde2c1f382c7f0a98cc6ac8ffdb1b2ea15a5adbff68d3c8f639fa290af89")] : Params) =
        Bybit.signedParams [] ⟨"1tr", "API_SECRET"⟩ 1234 ∧
      (none : Option Form) = none) ∧
    ("GET" ≠ "GET" →
      ([("api_key", "1tr"), ("timestamp", "1234"),
        ("sign", "5259dde2c1f382c7f0a98cc6ac8ffdb1b2ea15a5adbff68d3c8f639fa290af89")] : Params) = [] ∧
      ∃ base, Bybit.formAsParams none = .ok base ∧
        (none : Option Form) =
          some (.form (Bybit.signedParams base ⟨"1tr", "API_SECRET"⟩ 1234))) :=
  bybit_sign_placement ⟨"GET", "u", "p", [], [], none, none⟩
    ⟨"1tr", "API_SECRET"⟩ 1234
    ⟨"GET", "u", "p",
      [("api_key", "1tr"), ("timestamp", "1234"),
       ("sign", "5259dde2c1f382c7f0a98cc6ac8ffdb1b2ea15a5adbff68d3c8f639fa290af89")],
      [], none, none⟩ rfl

/-- C8 counterexample: the Binance signer raises `TypeError` when the
input params already contain a `timestamp` key (duplicate keyword
argument at `OrderedDict(**params, timestamp=...)`), and the Bybit signer
raises `TypeError` on a non-GET request whose body form is a non-empty
plain string (unpacked with `\x7b**...\x7d`). -/
theorem sign_request_raises_counterexample :
    Binance.sign_request ⟨"GET", "u", "p", [("timestamp", "1")], [], none, none⟩
        ⟨"k", "s"⟩ 1234 =
      .error "TypeError: multiple values for keyword argument timestamp" ∧
    Bybit.sign_request ⟨"POST", "u", "p", [], [], some (.str "x"), none⟩
        ⟨"k", "s"⟩ 1234 = .error "TypeError" :=
  ⟨rfl, rfl⟩

/-- C8 (amended): the signers are pure transforms that always return a
signed request, provided the Binance input params do not already carry a
`timestamp` or `signature` key and the Bybit non-GET body form unpacks as
a mapping; the FTX signer is total unconditionally. -/
theorem sign_request_total_amended :
    (∀ (r : Request) (c : Credentials) (ts : Int),
      "timestamp" ∉ pkeys r.params → "signature" ∉ pkeys r.params →
      ∃ res, Binance.sign_request r c ts = .ok res) ∧
    (∀ (r : Request) (c : Credentials) (ts : Int),
      (r.method ≠ "GET" → ∃ base, Bybit.formAsParams r.data = .ok base) →
      ∃ res, Bybit.sign_request r c ts = .ok res) ∧
    (∀ (r : Request) (c : FTXCredentials) (ts : Int),
      ∃ res, FTX.sign_request r c ts = res) := by
  refine ⟨?_, ?_, fun r c ts => ⟨_, rfl⟩⟩
  · intro r c ts hts hsig
    unfold Binance.sign_request
    rw [if_neg hts, if_neg ?side]
    · exact ⟨_, rfl⟩
    case side =>
      intro hmem
      unfold pkeys at hmem hsig
      rw [List.map_append] at hmem
      rcases List.mem_append.mp hmem with h | h
      · exact hsig h
      · simp at h
  · intro r c ts hform
    unfold Bybit.sign_request
    by_cases hm : r.method = "GET"
    · rw [if_pos hm]
      exact ⟨_, rfl⟩
    · rw [if_neg hm]
      obtain ⟨base, hb⟩ := hform hm
      rw [hb]
      exact ⟨_, rfl⟩

/-- C8 witness: totality applied at concrete well-formed inputs for all
three signers. -/
theorem sign_request_total_witness :
    (∃ res, Binance.sign_request ⟨"GET", "u", "p", [("a", "b")], [], none, none⟩
      ⟨"k", "s"⟩ 1 = .ok res) ∧
    (∃ res, Bybit.sign_request ⟨"POST", "u", "p", [], [], some (.form [("q", "2")]), none⟩
      ⟨"k", "s"⟩ 1 = .ok res) ∧
    (∃ res, FTX.sign_request ⟨"POST", "u", "/orders", [], [], none, some (.obj [])⟩
      ⟨"k", "s", none⟩ 10 = res) :=
  ⟨sign_request_total_amended.1 _ _ _ (by decide) (by decide),
   sign_request_total_amended.2.1 _ _ _ (fun _ => ⟨_, rfl⟩),
   sign_request_total_amended.2.2 _ _ _⟩

/-- C10: envelope-key totality — an object body without `ret_code` makes
the Bybit classifier fail with an untyped `KeyError`; an object body
without `success` does the same for FTX; and an object body with `code`
but without `msg` does the same for Binance.  None of these produce a
typed error. -/
theorem classifier_envelope_key_totality :
    (∀ (req : Request) (st : Nat) (hs : Params) fields,
      jsonGet fields "ret_code" = none →
      Bybit.handle_response req st hs (.obj fields) =
        .pyError "KeyError: ret_code") ∧
    (∀ (req : Request) (st : Nat) (hs : Params) fields,
      jsonGet fields "success" = none →
      FTX.handle_response req st hs (.obj fields) =
        .pyError "KeyError: success") ∧
    (∀ (req : Request) (st : Nat) (hs : Params) fields code,
      jsonGet fields "code" = some code → jsonGet fields "msg" = none →
      Binance.handle_response req st hs (.obj fields) =
        .pyError "KeyError: msg") := by
  refine ⟨?_, ?_, ?_⟩
  · intro req st hs fields hc
    simp [Bybit.handle_response, hc]
  · intro req st hs fields hc
    simp [FTX.handle_response, hc]
  · intro req st hs fields code hc hm
    simp [Binance.handle_response, hc, hm]

/-- C10 witness: the three key-lookup failures at concrete bodies. -/
theorem classifier_envelope_key_totality_witness :
    Bybit.handle_response ⟨"GET", "u", "p", [], [], none, none⟩ 200 []
        (.obj [("retCode", .num 0)]) = .pyError "KeyError: ret_code" ∧
    FTX.handle_response ⟨"GET", "u", "p", [], [], none, none⟩ 200 []
        (.obj [("result", .arr [])]) = .pyError "KeyError: success" ∧
    Binance.handle_response ⟨"GET", "u", "p", [], [], none, none⟩ 400 []
        (.obj [("code", .num (-1121))]) = .pyError "KeyError: msg" :=
  ⟨classifier_envelope_key_totality.1 _ 200 [] _ rfl,
   classifier_envelope_key_totality.2.1 _ 200 [] _ rfl,
   classifier_envelope_key_totality.2.2 _ 400 [] _ _ rfl rfl⟩

/-- Every error the Binance classifier raises carries the originating
request and the envelope built from the raw response. -/
theorem binance_raised_shape (req : Request) (st : Nat) (hs : Params)
    (body : Json) (e : ExchangeRaise BinanceKind)
    (h : Binance.handle_response req st hs body = .raised e) :
    e.request = req ∧ e.response = ⟨st, hs, body⟩ := by
  cases body with
  | null => simp [Binance.handle_response] at h
  | bool b => simp [Binance.handle_response] at h
  | num n => simp [Binance.handle_response] at h
  | arr elems => simp [Binance.handle_response] at h
  | str s =>
    by_cases hcs : listContainsSub "code".data s.data
    · simp [Binance.handle_response, hcs] at h
    · simp [Binance.handle_response, hcs] at h
  | obj fields =>
    cases hc : jsonGet fields "code" with
    | none => simp [Binance.handle_response, hc] at h
    | some code =>
      cases hm : jsonGet fields "msg" with
      | none => simp [Binance.handle_response, hc, hm] at h
      | some msg =>
        simp only [Binance.handle_response, hc, hm, Handle.raised.injEq] at h
        subst h
        exact ⟨rfl, rfl⟩

/-- Every error the Bybit classifier raises carries the originating
request and the envelope built from the raw response. -/
theorem bybit_raised_shape (req : Request) (st : Nat) (hs : Params)
    (body : Json) (e : ExchangeRaise BybitKind)
    (h : Bybit.handle_response req st hs body = .raised e) :
    e.request = req ∧ e.response = ⟨st, hs, body⟩ := by
  cases body with
  | null => simp [Bybit.handle_response] at h
  | bool b => simp [Bybit.handle_response] at h
  | num n => simp [Bybit.handle_response] at h
  | arr elems => simp [Bybit.handle_response] at h
  | str s => simp [Bybit.handle_response] at h
  | obj fields =>
    cases hc : jsonGet fields "ret_code" with
    | none => simp [Bybit.handle_response, hc] at h
    | some code =>
      by_cases hz : pyEqZero code
      · cases hr : jsonGet fields "result" with
        | none => simp [Bybit.handle_response, hc, hz, hr] at h
        | some payload => simp [Bybit.handle_response, hc, hz, hr] at h
      · simp only [Bybit.handle_response, hc, Bool.not_eq_true] at h
        rw [Bool.eq_false_iff.mpr hz] at h
        simp only [Bool.false_eq_true, if_false, Handle.raised.injEq] at h
        subst h
        exact ⟨rfl, rfl⟩

/-- Every error the FTX classifier raises carries the originating request
and the envelope built from the raw response. -/
theorem ftx_raised_shape (req : Request) (st : Nat) (hs : Params)
    (body : Json) (e : ExchangeRaise FTXKind)
    (h : FTX.handle_response req st hs body = .raised e) :
    e.request = req ∧ e.response = ⟨st, hs, body⟩ := by
  cases body with
  | null => simp [FTX.handle_response] at h
  | bool b => simp [FTX.handle_response] at h
  | num n => simp [FTX.handle_response] at h
  | arr elems => simp [FTX.handle_response] at h
  | str s => simp [FTX.handle_response] at h
  | obj fields =>
    cases hc : jsonGet fields "success" with
    | none => simp [FTX.handle_response, hc] at h
    | some ok =>
      by_cases ht : pyTruthy ok
      · cases hr : jsonGet fields "result" with
        | none => simp [FTX.handle_response, hc, ht, hr] at h
        | some payload => simp [FTX.handle_response, hc, ht, hr] at h
      · cases he : jsonGet fields "error" with
        | none => simp [FTX.handle_response, hc, ht, he] at h
        | some err =>
          cases err with
          | str s =>
            by_cases hp : listHasPre "no such market".data (pyLower s).data
            · simp only [FTX.handle_response, hc, ht, he, hp,
                Bool.false_eq_true, if_false, if_true, Handle.raised.injEq] at h
              subst h
              exact ⟨rfl, rfl⟩
            · simp only [FTX.handle_response, hc, ht, he, hp,
                Bool.false_eq_true, if_false, Handle.raised.injEq] at h
              subst h
              exact ⟨rfl, rfl⟩
          | null => simp [FTX.handle_response, hc, ht, he] at h
          | bool b => simp [FTX.handle_response, hc, ht, he] at h
          | num n => simp [FTX.handle_response, hc, ht, he] at h
          | arr elems => simp [FTX.handle_response, hc, ht, he] at h
          | obj fs => simp [FTX.handle_response, hc, ht, he] at h

/-- Payload invariant of `_send_request` for any classifier whose raised
errors carry the request and the raw envelope. -/
theorem sendRequest_payload_invariant {K : Type}
    (handler : Request → Nat → Params → Json → Handle K)
    (hshape : ∀ req st hs body e, handler req st hs body = .raised e →
      e.request = req ∧ e.response = ⟨st, hs, body⟩)
    (req : Request) (t : TransportOutcome) :
    (∀ r, sendRequest handler req t = .raisedNotConnection r →
      r = req ∧ t = .connectionFailure) ∧
    (∀ r, sendRequest handler req t = .raisedTimeout r →
      r = req ∧ t = .timeoutFailure) ∧
    (∀ e, sendRequest handler req t = .raisedExchange e →
      e.request = req ∧
      ∃ st hs body, t = .response st hs body ∧ e.response = ⟨st, hs, body⟩) := by
  cases t with
  | connectionFailure =>
    refine ⟨?_, ?_, ?_⟩
    · intro r h
      injection h with h
      exact ⟨h.symm, rfl⟩
    · intro r h
      exact absurd h (by simp [sendRequest])
    · intro e h
      exact absurd h (by simp [sendRequest])
  | timeoutFailure =>
    refine ⟨?_, ?_, ?_⟩
    · intro r h
      exact absurd h (by simp [sendRequest])
    · intro r h
      injection h with h
      exact ⟨h.symm, rfl⟩
    · intro e h
      exact absurd h (by simp [sendRequest])
  | response st hs body =>
    cases hh : handler req st hs body with
    | success p =>
      refine ⟨?_, ?_, ?_⟩ <;> intro x h <;>
        exact absurd h (by simp [sendRequest, hh])
    | raised e' =>
      refine ⟨?_, ?_, ?_⟩
      · intro r h
        exact absurd h (by simp [sendRequest, hh])
      · intro r h
        exact absurd h (by simp [sendRequest, hh])
      · intro e h
        simp only [sendRequest, hh, SendResult.raisedExchange.injEq] at h
        subst h
        obtain ⟨h1, h2⟩ := hshape _ _ _ _ _ hh
        exact ⟨h1, st, hs, body, rfl, h2⟩
    | pyError m =>
      refine ⟨?_, ?_, ?_⟩ <;> intro x h <;>
        exact absurd h (by simp [sendRequest, hh])

/-- C6: every typed exchange error produced by a `_send_request` pipeline
carries the originating request and the raw response envelope, while the
network errors (connection failure, timeout) carry only the request — no
response envelope exists on those paths (the transport produced none). -/
theorem typed_error_payload_invariant (req : Request) (t : TransportOutcome) :
    ((∀ r, sendRequest Binance.handle_response req t = .raisedNotConnection r →
        r = req ∧ t = .connectionFailure) ∧
     (∀ r, sendRequest Binance.handle_response req t = .raisedTimeout r →
        r = req ∧ t = .timeoutFailure) ∧
     (∀ e, sendRequest Binance.handle_response req t = .raisedExchange e →
        e.request = req ∧
        ∃ st hs body, t = .response st hs body ∧ e.response = ⟨st, hs, body⟩)) ∧
    ((∀ r, sendRequest Bybit.handle_response req t = .raisedNotConnection r →
        r = req ∧ t = .connectionFailure) ∧
     (∀ r, sendRequest Bybit.handle_response req t = .raisedTimeout r →
        r = req ∧ t = .timeoutFailure) ∧
     (∀ e, sendRequest Bybit.handle_response req t = .raisedExchange e →
        e.request = req ∧
        ∃ st hs body, t = .response st hs body ∧ e.response = ⟨st, hs, body⟩)) ∧
    ((∀ r, sendRequest FTX.handle_response req t = .raisedNotConnection r →
        r = req ∧ t = .connectionFailure) ∧
     (∀ r, sendRequest FTX.handle_response req t = .raisedTimeout r →
        r = req ∧ t = .timeoutFailure) ∧
     (∀ e, sendRequest FTX.handle_response req t = .raisedExchange e →
        e.request = req ∧
        ∃ st hs body, t = .response st hs body ∧ e.response = ⟨st, hs, body⟩)) :=
  ⟨sendRequest_payload_invariant _ binance_raised_shape req t,
   sendRequest_payload_invariant _ bybit_raised_shape req t,
   sendRequest_payload_invariant _ ftx_raised_shape req t⟩

/-- C6 witness: the invariant applied to a concrete network failure and a
concrete Bybit exchange rejection. -/
theorem typed_error_payload_invariant_witness :
    ((⟨"GET", "u", "p", [], [], none, none⟩ : Request) = ⟨"GET", "u", "p", [], [], none, none⟩ ∧
      TransportOutcome.connectionFailure = .connectionFailure) ∧
    ((⟨.generic, ⟨"GET", "u", "p", [], [], none, none⟩,
        ⟨400, [], .obj [("ret_code", .num 7)]⟩, .str ""⟩ : ExchangeRaise BybitKind).request =
        ⟨"GET", "u", "p", [], [], none, none⟩ ∧
      ∃ st hs body, (TransportOutcome.response 400 [] (.obj [("ret_code", .num 7)])) =
          .response st hs body ∧
        (⟨.generic, ⟨"GET", "u", "p", [], [], none, none⟩,
          ⟨400, [], .obj [("ret_code", .num 7)]⟩, .str ""⟩ : ExchangeRaise BybitKind).response =
          ⟨st, hs, body⟩) :=
  ⟨(typed_error_payload_invariant ⟨"GET", "u", "p", [], [], none, none⟩
      .connectionFailure).1.1 _ rfl,
   (typed_error_payload_invariant ⟨"GET", "u", "p", [], [], none, none⟩
      (.response 400 [] (.obj [("ret_code", .num 7)]))).2.1.2.2 _ rfl⟩

/-- C7 counterexample: a caught `BybitInvalidParameterError` whose stored
response body has no `ret_msg` field is neither reclassified nor
re-raised unchanged — the message lookup in the `except` block itself
fails with an untyped `KeyError`. -/
theorem bybit_new_order_swallow_counterexample :
    Bybit.newOrderCatch (.raisedExchange ⟨.invalidParameter,
        ⟨"POST", "u", "/spot/v1/order", [], [], none, none⟩,
        ⟨400, [], .obj [("ret_code", .num (-1130))]⟩, .str ""⟩) =
      .pyError "KeyError: ret_msg" ∧
    Bybit.newOrderCatch (.raisedExchange ⟨.invalidParameter,
        ⟨"POST", "u", "/spot/v1/order", [], [], none, none⟩,
        ⟨400, [], .obj [("ret_code", .num (-1130))]⟩, .str ""⟩) ≠
      .raisedExchange ⟨.invalidParameter,
        ⟨"POST", "u", "/spot/v1/order", [], [], none, none⟩,
        ⟨400, [], .obj [("ret_code", .num (-1130))]⟩, .str ""⟩ :=
  ⟨rfl, fun h => nomatch h⟩

/-- C7 (amended): `new_order`'s catch block re-raises a caught
invalid-parameter error whose body's `ret_msg` is one of the two
symbol-validation literals as the invalid-symbol error with the same
request and response; a caught invalid-parameter error with any other
string `ret_msg` — and any other caught error kind — is re-raised
unchanged; no path returns success.  (A stored body without a `ret_msg`
string is the documented exception: it produces an untyped `KeyError`.) -/
theorem bybit_new_order_reclassification (e : ExchangeRaise BybitKind) :
    (∀ fields s, e.kind = .invalidParameter →
      e.response.body = .obj fields →
      jsonGet fields "ret_msg" = some (.str s) →
      ((s = Bybit.symbolMsg1 ∨ s = Bybit.symbolMsg2) →
        Bybit.newOrderCatch (.raisedExchange e) =
          .raisedExchange ⟨.invalidSymbol, e.request, e.response, .str ""⟩) ∧
      (¬(s = Bybit.symbolMsg1 ∨ s = Bybit.symbolMsg2) →
        Bybit.newOrderCatch (.raisedExchange e) = .raisedExchange e)) ∧
    (e.kind ≠ .invalidParameter →
      Bybit.newOrderCatch (.raisedExchange e) = .raisedExchange e) ∧
    (Bybit.newOrderCatch (.raisedExchange e)).isSuccess = false := by
  refine ⟨?_, ?_, ?_⟩
  · intro fields s hk hb hm
    constructor
    · intro hs12
      simp [Bybit.newOrderCatch, hk, hb, hm, hs12]
    · intro hs12
      simp [Bybit.newOrderCatch, hk, hb, hm, hs12]
  · intro hk
    simp [Bybit.newOrderCatch, hk]
  · simp only [Bybit.newOrderCatch]
    repeat' split
    all_goals rfl

/-- C7 witness: reclassification applied to a concrete caught
invalid-parameter error carrying the symbol-validation message, and the
unchanged re-raise applied to a concrete auth error. -/
theorem bybit_new_order_reclassification_witness :
    Bybit.newOrderCatch (.raisedExchange ⟨.invalidParameter,
        ⟨"POST", "u", "/spot/v1/order", [], [], none, none⟩,
        ⟨400, [], .obj [("ret_code", .num (-1130)),
          ("ret_msg", .str Bybit.symbolMsg1)]⟩, .str ""⟩) =
      .raisedExchange ⟨.invalidSymbol,
        ⟨"POST", "u", "/spot/v1/order", [], [], none, none⟩,
        ⟨400, [], .obj [("ret_code", .num (-1130)),
          ("ret_msg", .str Bybit.symbolMsg1)]⟩, .str ""⟩ ∧
    Bybit.newOrderCatch (.raisedExchange ⟨.auth,
        ⟨"POST", "u", "/spot/v1/order", [], [], none, none⟩,
        ⟨400, [], .obj [("ret_code", .num (-1002))]⟩, .str ""⟩) =
      .raisedExchange ⟨.auth,
        ⟨"POST", "u", "/spot/v1/order", [], [], none, none⟩,
        ⟨400, [], .obj [("ret_code", .num (-1002))]⟩, .str ""⟩ :=
  ⟨((bybit_new_order_reclassification ⟨.invalidParameter,
        ⟨"POST", "u", "/spot/v1/order", [], [], none, none⟩,
        ⟨400, [], .obj [("ret_code", .num (-1130)),
          ("ret_msg", .str Bybit.symbolMsg1)]⟩, .str ""⟩).1
      [("ret_code", .num (-1130)), ("ret_msg", .str Bybit.symbolMsg1)]
      Bybit.symbolMsg1 rfl rfl rfl).1 (Or.inl rfl),
   (bybit_new_order_reclassification ⟨.auth,
        ⟨"POST", "u", "/spot/v1/order", [], [], none, none⟩,
        ⟨400, [], .obj [("ret_code", .num (-1002))]⟩, .str ""⟩).2.1 (by decide)⟩

/-- For every Binance error class, `__str__` is a fixed prefix followed
by the interpolated stored message. -/
theorem binanceErrStr_suffix (k : BinanceKind) (m : Json) :
    ∃ pre, BinanceKind.errStr k m = pre ++ pyStr m := by
  cases k <;> exact ⟨_, rfl⟩

/-- C9 counterexample: a Bybit failure body with `ret_msg="boom"` raises
`BybitInvalidParameterError` with an empty stored message, whose string
representation `Invalid parameter sent. ` contains neither the exchange
name `Bybit` nor the exchange-supplied message `boom`. -/
theorem error_str_counterexample :
    Bybit.handle_response ⟨"POST", "u", "p", [], [], none, none⟩ 400 []
        (.obj [("ret_code", .num (-1130)), ("ret_msg", .str "boom")]) =
      .raised ⟨.invalidParameter, ⟨"POST", "u", "p", [], [], none, none⟩,
        ⟨400, [], .obj [("ret_code", .num (-1130)), ("ret_msg", .str "boom")]⟩,
        .str ""⟩ ∧
    BybitKind.errStr .invalidParameter (.str "") = "Invalid parameter sent. " ∧
    listContainsSub "Bybit".data "Invalid parameter sent. ".data = false ∧
    listContainsSub "boom".data "Invalid parameter sent. ".data = false :=
  ⟨rfl, rfl, by decide, by decide⟩

/-- C9 (amended): the Binance classifier stores the exchange-supplied
`msg` in the error and every Binance error's string representation ends
with that message; the Bybit and FTX classifiers construct their errors
with an empty message, so the exchange-supplied text never reaches the
string representation; and only the generic base classes
(`BinanceError`/`BybitError`/`FTXError`) name the exchange in their
string representation. -/
theorem error_str_amended :
    (∀ (req : Request) (st : Nat) (hs : Params) fields
        (e : ExchangeRaise BinanceKind),
      Binance.handle_response req st hs (.obj fields) = .raised e →
      jsonGet fields "msg" = some e.msg ∧
      ∃ pre, BinanceKind.errStr e.kind e.msg = pre ++ pyStr e.msg) ∧
    (∀ (req : Request) (st : Nat) (hs : Params) (body : Json)
        (e : ExchangeRaise BybitKind),
      Bybit.handle_response req st hs body = .raised e → e.msg = .str "") ∧
    (∀ (req : Request) (st : Nat) (hs : Params) (body : Json)
        (e : ExchangeRaise FTXKind),
      FTX.handle_response req st hs body = .raised e → e.msg = .str "") ∧
    (∀ m, BinanceKind.errStr .generic m = "Binance error: " ++ pyStr m) ∧
    (∀ m, BybitKind.errStr .generic m = "Bybit error: " ++ pyStr m) ∧
    (∀ m, FTXKind.errStr .generic m = "FTX error. " ++ pyStr m) := by
  refine ⟨?_, ?_, ?_, fun m => rfl, fun m => rfl, fun m => rfl⟩
  · intro req st hs fields e h
    cases hc : jsonGet fields "code" with
    | none => simp [Binance.handle_response, hc] at h
    | some code =>
      cases hm : jsonGet fields "msg" with
      | none => simp [Binance.handle_response, hc, hm] at h
      | some msg =>
        simp only [Binance.handle_response, hc, hm, Handle.raised.injEq] at h
        subst h
        exact ⟨rfl, binanceErrStr_suffix _ _⟩
  · intro req st hs body e h
    cases body with
    | null => simp [Bybit.handle_response] at h
    | bool b => simp [Bybit.handle_response] at h
    | num n => simp [Bybit.handle_response] at h
    | arr elems => simp [Bybit.handle_response] at h
    | str s => simp [Bybit.handle_response] at h
    | obj fields =>
      cases hc : jsonGet fields "ret_code" with
      | none => simp [Bybit.handle_response, hc] at h
      | some code =>
        by_cases hz : pyEqZero code
        · cases hr : jsonGet fields "result" with
          | none => simp [Bybit.handle_response, hc, hz, hr] at h
          | some payload => simp [Bybit.handle_response, hc, hz, hr] at h
        · simp only [Bybit.handle_response, hc, Bool.not_eq_true] at h
          rw [Bool.eq_false_iff.mpr hz] at h
          simp only [Bool.false_eq_true, if_false, Handle.raised.injEq] at h
          subst h
          rfl
  · intro req st hs body e h
    cases body with
    | null => simp [FTX.handle_response] at h
    | bool b => simp [FTX.handle_response] at h
    | num n => simp [FTX.handle_response] at h
    | arr elems => simp [FTX.handle_response] at h
    | str s => simp [FTX.handle_response] at h
    | obj fields =>
      cases hc : jsonGet fields "success" with
      | none => simp [FTX.handle_response, hc] at h
      | some ok =>
        by_cases ht : pyTruthy ok
        · cases hr : jsonGet fields "result" with
          | none => simp [FTX.handle_response, hc, ht, hr] at h
          | some payload => simp [FTX.handle_response, hc, ht, hr] at h
        · cases he : jsonGet fields "error" with
          | none => simp [FTX.handle_response, hc, ht, he] at h
          | some err =>
            cases err with
            | str s =>
              by_cases hp : listHasPre "no such market".data (pyLower s).data
              · simp only [FTX.handle_response, hc, ht, he, hp,
                  Bool.false_eq_true, if_false, if_true, Handle.raised.injEq] at h
                subst h
                rfl
              · simp only [FTX.handle_response, hc, ht, he, hp,
                  Bool.false_eq_true, if_false, Handle.raised.injEq] at h
                subst h
                rfl
            | null => simp [FTX.handle_response, hc, ht, he] at h
            | bool b => simp [FTX.handle_response, hc, ht, he] at h
            | num n => simp [FTX.handle_response, hc, ht, he] at h
            | arr elems => simp [FTX.handle_response, hc, ht, he] at h
            | obj fs => simp [FTX.handle_response, hc, ht, he] at h

/-- C9 witness: the Binance part applied to a concrete failure body (the
string representation ends with the exchange's message), and the Bybit
part applied to a concrete failure body (empty stored message). -/
theorem error_str_amended_witness :
    (jsonGet [("code", .num (-1121)), ("msg", .str "bad symbol")] "msg" =
      some (ExchangeRaise.msg (K := BinanceKind) ⟨.invalidSymbol,
        ⟨"GET", "u", "p", [], [], none, none⟩,
        ⟨400, [], .obj [("code", .num (-1121)), ("msg", .str "bad symbol")]⟩,
        .str "bad symbol"⟩) ∧
     ∃ pre, BinanceKind.errStr
        (ExchangeRaise.kind (K := BinanceKind) ⟨.invalidSymbol,
          ⟨"GET", "u", "p", [], [], none, none⟩,
          ⟨400, [], .obj [("code", .num (-1121)), ("msg", .str "bad symbol")]⟩,
          .str "bad symbol"⟩)
        (.str "bad symbol") = pre ++ pyStr (.str "bad symbol")) ∧
    ExchangeRaise.msg (K := BybitKind) ⟨.invalidParameter,
        ⟨"GET", "u", "p", [], [], none, none⟩,
        ⟨400, [], .obj [("ret_code", .num (-1130))]⟩, .str ""⟩ = .str "" :=
  ⟨error_str_amended.1 ⟨"GET", "u", "p", [], [], none, none⟩ 400 []
      [("code", .num (-1121)), ("msg", .str "bad symbol")]
      ⟨.invalidSymbol, ⟨"GET", "u", "p", [], [], none, none⟩,
        ⟨400, [], .obj [("code", .num (-1121)), ("msg", .str "bad symbol")]⟩,
        .str "bad symbol"⟩ rfl,
   error_str_amended.2.1 ⟨"GET", "u", "p", [], [], none, none⟩ 400 []
      (.obj [("ret_code", .num (-1130))])
      ⟨.invalidParameter, ⟨"GET", "u", "p", [], [], none, none⟩,
        ⟨400, [], .obj [("ret_code", .num (-1130))]⟩, .str ""⟩ rfl⟩
